import Mathlib

/-!
Verification of the CommandCanvas command-interception and warning pipeline.

The development embeds, in Lean, the parts of the repository that the
claims are about:

* `warning-engine.ts` — the `WarningEngine` class: built-in rule catalog,
  construction from a `WarningsConfig`, `evaluate`, `addRule`,
  `compileRules`.  JavaScript `RegExp` objects (constructed with the `'i'`
  flag) are embedded by a small Brzozowski-derivative matcher over the
  regex syntax the rules use; `new RegExp(pattern, 'i')` throwing on a bad
  pattern is embedded by `compilePattern` returning `none`.
* `ipc-handlers.ts` — the `shell:write` byte-processing loop with its line
  buffer, escape-sequence flag, pending-command map, and the
  `warning:confirm` / `warning:cancel` resolution handlers.  Writes to the
  shell (`shellManager.write`) are modelled by appending to a `sinkOut`
  stream, and `webContents.send(WARNING_TRIGGERED, …)` by appending to an
  `events` list.  `Date.now()` is modelled by an explicit `now : Nat`
  argument supplied by the environment at each step.

Strings are modelled as `List Char` (JavaScript strings are iterated
code-point-wise by the `for (const char of data)` loop; all data involved
is ASCII).
-/

-- ============================================================
-- Embedding of the JavaScript RegExp subset used by the rules
-- ============================================================

/-- JavaScript `\s` on the ASCII range (space, tab, LF, CR, VT, FF). -/
def isSpaceJS (c : Char) : Bool :=
  c == ' ' || c == '\t' || c == '\n' || c == '\r' || c == '\x0b' || c == '\x0c'

/-- ASCII upper-casing (inverse direction of `Char.toLower`). -/
def upperAscii (c : Char) : Char :=
  if 97 ≤ c.toNat && c.toNat ≤ 122 then Char.ofNat (c.toNat - 32) else c

/-- Case-fold a string the way the matcher does before testing. -/
def foldCase (l : List Char) : List Char := l.map Char.toLower

/-- Abstract syntax of the regex fragment appearing in the rule patterns:
literals, `.`, character classes, `\s`, concatenation, alternation and
Kleene star (`+` and `?` are desugared by the pattern reader). -/
inductive Regex where
  | fail : Regex
  | eps : Regex
  | lit : Char → Regex
  | anyc : Regex
  | cls : List (Char × Char) → Regex
  | space : Regex
  | cat : Regex → Regex → Regex
  | alt : Regex → Regex → Regex
  | star : Regex → Regex
deriving DecidableEq, Repr

/-- Does the regex accept the empty string? -/
def nullable : Regex → Bool
  | .fail => false
  | .eps => true
  | .lit _ => false
  | .anyc => false
  | .cls _ => false
  | .space => false
  | .cat a b => nullable a && nullable b
  | .alt a b => nullable a || nullable b
  | .star _ => true

/-- Membership of a character in a class's range list. -/
def inRanges (c : Char) (rs : List (Char × Char)) : Bool :=
  rs.any (fun p => p.1 ≤ c && c ≤ p.2)

/-- Single-character test for the atomic regexes.  The input character has
already been folded to lower case, so a literal compares case-folded and a
class also tries the upper-case variant (the `'i'` flag of `RegExp`). -/
def atomTest (r : Regex) (c : Char) : Bool :=
  match r with
  | .lit d => Char.toLower d == c
  | .anyc => !(c == '\n' || c == '\r')
  | .cls rs => inRanges c rs || inRanges (upperAscii c) rs
  | .space => isSpaceJS c
  | _ => false

/-- Brzozowski derivative. -/
def rderiv (r : Regex) (c : Char) : Regex :=
  match r with
  | .fail => .fail
  | .eps => .fail
  | .lit d => if atomTest (.lit d) c then .eps else .fail
  | .anyc => if atomTest .anyc c then .eps else .fail
  | .cls rs => if atomTest (.cls rs) c then .eps else .fail
  | .space => if atomTest .space c then .eps else .fail
  | .cat a b =>
      if nullable a then .alt (.cat (rderiv a c) b) (rderiv b c)
      else .cat (rderiv a c) b
  | .alt a b => .alt (rderiv a c) (rderiv b c)
  | .star a => .cat (rderiv a c) (.star a)

/-- Does some prefix of `l` (possibly empty) match `r`? -/
def matchesAt (r : Regex) : List Char → Bool
  | [] => nullable r
  | c :: cs => nullable r || matchesAt (rderiv r c) cs

/-- Unanchored search: does `r` match starting at some position of `l`? -/
def searchAll (r : Regex) : List Char → Bool
  | [] => nullable r
  | c :: cs => matchesAt r (c :: cs) || searchAll r cs

/-- A compiled `RegExp`: the parsed body plus whether the pattern started
with the `^` anchor. -/
structure CompiledRegex where
  ast : Regex
  anchored : Bool
deriving DecidableEq, Repr

/-- Embedding of `regex.test(s)` for a regex compiled with the `'i'` flag:
the input is case-folded, then matched from the start when anchored and
searched at every position otherwise. -/
def regexTest (re : CompiledRegex) (s : List Char) : Bool :=
  if re.anchored then matchesAt re.ast (foldCase s) else searchAll re.ast (foldCase s)

-- ============================================================
-- Reading a pattern string into a Regex (the embedding of
-- `new RegExp(pattern, 'i')`; `none` embeds the constructor throwing)
-- ============================================================

/-- Read the items of a character class up to the closing `]`. -/
def readClassItems : Nat → List Char → Option (List (Char × Char) × List Char)
  | _, ']' :: rest => some ([], rest)
  | fuel + 1, '\\' :: d :: rest =>
      (readClassItems fuel rest).map (fun p => ((d, d) :: p.1, p.2))
  | fuel + 1, c :: '-' :: d :: rest =>
      if c = '\\' ∨ d = ']' then
        if c = '\\' then none
        else (readClassItems fuel ('-' :: d :: rest)).map (fun p => ((c, c) :: p.1, p.2))
      else (readClassItems fuel rest).map (fun p => ((c, d) :: p.1, p.2))
  | fuel + 1, c :: rest =>
      if c = '\\' then none
      else (readClassItems fuel rest).map (fun p => ((c, c) :: p.1, p.2))
  | _, _ => none

/-- Characters that cannot stand as bare literals in our fragment. -/
def isMetaChar (c : Char) : Bool :=
  c == '(' || c == ')' || c == '[' || c == ']' || c == '|' || c == '*' ||
  c == '+' || c == '?' || c == '^' || c == '$' || c == '{' || c == '}' || c == '\\'

mutual

/-- Alternation level: `seq ('|' alt)?`. -/
def readAlt : Nat → List Char → Option (Regex × List Char)
  | 0, _ => none
  | fuel + 1, l =>
      match readSeq fuel l with
      | none => none
      | some (r, rest) =>
          match rest with
          | '|' :: rest₂ =>
              match readAlt fuel rest₂ with
              | none => none
              | some (r₂, rest₃) => some (.alt r r₂, rest₃)
          | _ => some (r, rest)

/-- Sequence level: zero or more postfixed atoms, stopping at `)`/`|`/end. -/
def readSeq : Nat → List Char → Option (Regex × List Char)
  | 0, _ => none
  | fuel + 1, l =>
      match l with
      | [] => some (.eps, [])
      | ')' :: _ => some (.eps, l)
      | '|' :: _ => some (.eps, l)
      | _ =>
          match readPostfixed fuel l with
          | none => none
          | some (r, rest) =>
              match readSeq fuel rest with
              | none => none
              | some (r₂, rest₂) => some (.cat r r₂, rest₂)

/-- An atom followed by an optional `*`, `+` or `?`. -/
def readPostfixed : Nat → List Char → Option (Regex × List Char)
  | 0, _ => none
  | fuel + 1, l =>
      match readAtom fuel l with
      | none => none
      | some (r, rest) =>
          match rest with
          | '*' :: rest₂ => some (.star r, rest₂)
          | '+' :: rest₂ => some (.cat r (.star r), rest₂)
          | '?' :: rest₂ => some (.alt r .eps, rest₂)
          | _ => some (r, rest)

/-- A single atom: escape, class, group, `.`, or a bare literal. -/
def readAtom : Nat → List Char → Option (Regex × List Char)
  | 0, _ => none
  | fuel + 1, l =>
      match l with
      | '\\' :: 's' :: rest => some (.space, rest)
      | '\\' :: d :: rest =>
          if d.isAlpha || d.isDigit then none else some (.lit d, rest)
      | '[' :: rest =>
          match readClassItems rest.length rest with
          | none => none
          | some (rs, rest₂) => some (.cls rs, rest₂)
      | '(' :: rest =>
          match readAlt fuel rest with
          | none => none
          | some (r, rest₂) =>
              match rest₂ with
              | ')' :: rest₃ => some (r, rest₃)
              | _ => none
      | '.' :: rest => some (.anyc, rest)
      | c :: rest => if isMetaChar c then none else some (.lit c, rest)
      | [] => none

end

/-- Embedding of `new RegExp(pattern, 'i')`: `some` a compiled regex, or
`none` when the pattern does not compile (the constructor throws). -/
def compilePattern (pat : List Char) : Option CompiledRegex :=
  let (anchored, body) :=
    match pat with
    | '^' :: rest => (true, rest)
    | _ => (false, pat)
  match readAlt (body.length * 2 + 4) body with
  | some (r, []) => some ⟨r, anchored⟩
  | _ => none

-- ============================================================
-- Embedding of src/shared/types.ts (the types the claims use)
-- ============================================================

/-- The `riskLevel` union type of `types.ts`. -/
inductive RiskLevel where
  | low | medium | high | critical
deriving DecidableEq, Repr

/-- Structure `WarningRule` of `types.ts`. -/
structure WarningRule where
  id : List Char
  name : List Char
  pattern : List Char
  riskLevel : RiskLevel
  description : List Char
  recommendation : List Char
deriving DecidableEq, Repr

/-- Structure `WarningResult` of `types.ts`. -/
structure WarningResult where
  warningId : List Char
  ruleId : List Char
  riskLevel : RiskLevel
  command : List Char
  description : List Char
  recommendation : List Char
deriving DecidableEq, Repr

/-- Structure `WarningDisplayPayload` of `types.ts` (what `warning:triggered` carries). -/
structure WarningDisplayPayload where
  warningId : List Char
  command : List Char
  riskLevel : RiskLevel
  description : List Char
  recommendation : List Char
deriving DecidableEq, Repr

/-- Structure `WarningsConfig` of `types.ts`. -/
structure WarningsConfig where
  enabled : Bool
  disabledBuiltInRules : List (List Char)
  customRules : List WarningRule
deriving DecidableEq, Repr

/-- Structure `PendingCommand` of `types.ts`. -/
structure PendingCommand where
  warningId : List Char
  pendingData : List Char
deriving DecidableEq, Repr

-- ============================================================
-- Embedding of src/main/warning-engine.ts
-- ============================================================

/-- The `BUILT_IN_RULES` catalog of `warning-engine.ts`, in source order. -/
def BUILT_IN_RULES : List WarningRule :=
  [ ⟨"rm-rf".data, "Recursive Force Delete".data,
      "rm\\s+(-[a-zA-Z]*r[a-zA-Z]*f|f[a-zA-Z]*r)".data, .critical,
      "Recursively deletes files without confirmation. Can destroy important data.".data,
      "Double-check the target path. Consider using trash-cli instead.".data⟩,
    ⟨"rm-root".data, "Delete Root".data,
      "rm\\s+.*\\s+/".data, .critical,
      "Targets the root filesystem for deletion.".data,
      "This will destroy your entire system. Almost certainly not what you want.".data⟩,
    ⟨"sudo".data, "Superuser Execution".data,
      "^sudo\\s+".data, .medium,
      "Executes command with superuser privileges.".data,
      "Verify you trust this command before running with elevated permissions.".data⟩,
    ⟨"git-reset-hard".data, "Git Hard Reset".data,
      "git\\s+reset\\s+--hard".data, .high,
      "Discards all uncommitted changes permanently.".data,
      "Consider git stash first to preserve your changes.".data⟩,
    ⟨"git-force-push".data, "Git Force Push".data,
      "git\\s+push\\s+.*--force".data, .high,
      "Overwrites remote history. Can cause data loss for collaborators.".data,
      "Use --force-with-lease for a safer alternative.".data⟩,
    ⟨"chmod-777".data, "Open Permissions".data,
      "chmod\\s+777".data, .high,
      "Sets file permissions to fully open (read/write/execute for everyone).".data,
      "Use more restrictive permissions like 755 or 644.".data⟩,
    ⟨"dd".data, "Disk Dump".data,
      "^dd\\s+".data, .critical,
      "Low-level disk copy tool. Can overwrite disk partitions.".data,
      "Verify the of= (output file) parameter extremely carefully.".data⟩,
    ⟨"mkfs".data, "Format Filesystem".data,
      "mkfs".data, .critical,
      "Formats a filesystem partition, destroying all data on it.".data,
      "Triple-check the target device before executing.".data⟩,
    ⟨"git-clean-fd".data, "Git Clean Force".data,
      "git\\s+clean\\s+.*-[a-zA-Z]*f".data, .high,
      "Permanently removes untracked files from the working directory.".data,
      "Run git clean -n first for a dry-run preview.".data⟩,
    ⟨"curl-pipe-sh".data, "Pipe to Shell".data,
      "curl\\s+.*\\|.*sh".data, .high,
      "Downloads and immediately executes a remote script.".data,
      "Download the script first, review it, then execute.".data⟩ ]

/-- Structure `CompiledRule` of `warning-engine.ts`. -/
structure CompiledRule where
  rule : WarningRule
  regex : CompiledRegex
deriving DecidableEq, Repr

/-- The `compileRules` loop: each rule's pattern is compiled; a rule whose
pattern fails to compile is logged and skipped (the `try`/`catch` of the
source), the others are kept in order. -/
def compileRules (allRules : List WarningRule) : List CompiledRule :=
  allRules.filterMap (fun r => (compilePattern r.pattern).map (fun re => ⟨r, re⟩))

/-- Instance state of the `WarningEngine` class. -/
structure WarningEngine where
  enabled : Bool
  compiledRules : List CompiledRule
  allRules : List WarningRule
deriving DecidableEq, Repr

/-- The `WarningEngine` constructor: built-ins minus the disabled ids, then
the custom rules, then `compileRules`. -/
def WarningEngine.init (config : WarningsConfig) : WarningEngine :=
  let allRules :=
    (BUILT_IN_RULES.filter (fun r => !(config.disabledBuiltInRules.contains r.id))) ++
      config.customRules
  { enabled := config.enabled
    allRules := allRules
    compiledRules := compileRules allRules }

/-- JavaScript `String.prototype.trim` (ASCII whitespace). -/
def trimJS (l : List Char) : List Char :=
  ((l.dropWhile isSpaceJS).reverse.dropWhile isSpaceJS).reverse

/-- The expression `'warn-' + Date.now()` — the decision identifier, a function of the
millisecond clock value alone. -/
def warnId (now : Nat) : List Char := "warn-".data ++ (Nat.repr now).data

/-- The `WarningResult` object literal built in `evaluate`'s match case. -/
def mkWarningResult (now : Nat) (trimmed : List Char) (rule : WarningRule) : WarningResult :=
  ⟨warnId now, rule.id, rule.riskLevel, trimmed, rule.description, rule.recommendation⟩

/-- The `for (const {rule, regex} of this.compiledRules)` loop of
`evaluate`: first rule whose regex tests true wins. -/
def findFirstMatch (trimmed : List Char) : List CompiledRule → Option CompiledRule
  | [] => none
  | cr :: rest => if regexTest cr.regex trimmed then some cr else findFirstMatch trimmed rest

/-- Method `WarningEngine.evaluate`.  `now` is the value `Date.now()` returns
during the call. -/
def WarningEngine.evaluate (e : WarningEngine) (now : Nat) (command : List Char) :
    Option WarningResult :=
  if !e.enabled then none
  else
    let trimmed := trimJS command
    if trimmed.length = 0 then none
    else
      match findFirstMatch trimmed e.compiledRules with
      | some cr => some (mkWarningResult now trimmed cr.rule)
      | none => none

/-- Method `WarningEngine.addRule`: append and recompile. -/
def WarningEngine.addRule (e : WarningEngine) (rule : WarningRule) : WarningEngine :=
  { e with allRules := e.allRules ++ [rule]
           compiledRules := compileRules (e.allRules ++ [rule]) }

/-- Method `WarningEngine.getRules` (defensive copy — in the embedding, the list). -/
def WarningEngine.getRules (e : WarningEngine) : List WarningRule := e.allRules

/-- Method `WarningEngine.setEnabled`. -/
def WarningEngine.setEnabled (e : WarningEngine) (enabled : Bool) : WarningEngine :=
  { e with enabled := enabled }

-- ============================================================
-- Embedding of src/main/ipc-handlers.ts (shell:write pipeline,
-- warning:confirm / warning:cancel resolution)
-- ============================================================

/-- Operation `Map.prototype.get` on the pending-command map (string keys). -/
def mapGet (m : List (List Char × PendingCommand)) (k : List Char) : Option PendingCommand :=
  match m with
  | [] => none
  | (k', v) :: rest => if k' = k then some v else mapGet rest k

/-- Operation `Map.prototype.set`: replace in place when the key is present,
otherwise append (JavaScript `Map` preserves insertion order). -/
def mapSet (m : List (List Char × PendingCommand)) (k : List Char) (v : PendingCommand) :
    List (List Char × PendingCommand) :=
  match m with
  | [] => [(k, v)]
  | (k', v') :: rest => if k' = k then (k, v) :: rest else (k', v') :: mapSet rest k v

/-- Operation `Map.prototype.delete` (a `Map` holds at most one entry per key). -/
def mapDelete (m : List (List Char × PendingCommand)) (k : List Char) :
    List (List Char × PendingCommand) :=
  m.filter (fun p => !(p.1 = k : Bool))

/-- Constant `MAX_LINE_BUFFER_LENGTH` of `ipc-handlers.ts`. -/
def MAX_LINE_BUFFER_LENGTH : Nat := 65536

/-- The mutable state closed over by `registerAllHandlers`, together with
the two observable output streams: `sinkOut` accumulates every byte passed
to `shellManager.write`, and `events` every `warning:triggered` payload
passed to `webContents.send`. -/
structure HandlerState where
  lineBuffer : List Char
  pendingCommands : List (List Char × PendingCommand)
  inEscapeSequence : Bool
  shellAlive : Bool
  sinkOut : List Char
  events : List WarningDisplayPayload
deriving DecidableEq, Repr

/-- The payload literal built in the match branch of the `shell:write`
handler and sent on `warning:triggered`. -/
def toDisplayPayload (w : WarningResult) : WarningDisplayPayload :=
  ⟨w.warningId, w.command, w.riskLevel, w.description, w.recommendation⟩

/-- The test `/[A-Za-z~]/.test(char)` — the escape-sequence terminator class. -/
def isEscTerm (c : Char) : Bool :=
  ('A' ≤ c && c ≤ 'Z') || ('a' ≤ c && c ≤ 'z') || c == '~'

/-- The body of the `for (const char of data)` loop of the `shell:write`
handler: one byte of input, against the engine `e`, with `now` the value
`Date.now()` would return during this step. -/
def shellWriteChar (e : WarningEngine) (now : Nat) (s : HandlerState) (c : Char) :
    HandlerState :=
  if c = '\x1b' then
    { s with inEscapeSequence := true, sinkOut := s.sinkOut ++ [c] }
  else if s.inEscapeSequence then
    { s with sinkOut := s.sinkOut ++ [c]
             inEscapeSequence := if isEscTerm c then false else true }
  else if c = '\x7f' ∨ c = '\x08' then
    { s with lineBuffer := s.lineBuffer.dropLast, sinkOut := s.sinkOut ++ [c] }
  else if c.toNat < 0x20 ∧ c ≠ '\r' ∧ c ≠ '\n' then
    { s with lineBuffer := [], sinkOut := s.sinkOut ++ [c] }
  else if c = '\r' ∨ c = '\n' then
    let command := trimJS s.lineBuffer
    if command.length = 0 then
      { s with sinkOut := s.sinkOut ++ [c], lineBuffer := [] }
    else
      match e.evaluate now command with
      | none => { s with sinkOut := s.sinkOut ++ [c], lineBuffer := [] }
      | some w =>
          { s with
            pendingCommands :=
              mapSet s.pendingCommands w.warningId ⟨w.warningId, ['\r']⟩
            events := s.events ++ [toDisplayPayload w] }
  else
    { s with
      lineBuffer :=
        if s.lineBuffer.length < MAX_LINE_BUFFER_LENGTH then s.lineBuffer ++ [c]
        else s.lineBuffer
      sinkOut := s.sinkOut ++ [c] }

/-- The `shell:write` handler: input is discarded whole when the shell is
not alive, otherwise processed byte by byte. -/
def shellWrite (e : WarningEngine) (now : Nat) (s : HandlerState) (data : List Char) :
    HandlerState :=
  if !s.shellAlive then s
  else data.foldl (shellWriteChar e now) s

/-- The `warning:confirm` handler. -/
def warningConfirm (s : HandlerState) (warningId : List Char) : HandlerState :=
  match mapGet s.pendingCommands warningId with
  | some pending =>
      { s with sinkOut := s.sinkOut ++ pending.pendingData
               pendingCommands := mapDelete s.pendingCommands warningId
               lineBuffer := [] }
  | none => s

/-- The `warning:cancel` handler (`'\x15'` is the Ctrl+U kill-line byte). -/
def warningCancel (s : HandlerState) (warningId : List Char) : HandlerState :=
  match mapGet s.pendingCommands warningId with
  | some _ =>
      { s with pendingCommands := mapDelete s.pendingCommands warningId
               lineBuffer := []
               sinkOut := s.sinkOut ++ ['\x15'] }
  | none => s

-- ============================================================
-- Concrete configurations and runs used by witnesses and
-- counterexamples
-- ============================================================

/-- A default configuration: engine enabled, nothing disabled, no customs. -/
def cfgDefault : WarningsConfig := ⟨true, [], []⟩

/-- The engine built from the default configuration. -/
def engDefault : WarningEngine := WarningEngine.init cfgDefault

/-- A configuration with the engine globally disabled. -/
def cfgDisabled : WarningsConfig := ⟨false, [], []⟩

/-- Fresh session state: empty buffer, no pendings, shell alive. -/
def sFresh : HandlerState := ⟨[], [], false, true, [], []⟩

/-- State `sFresh` after typing `sudo a` (six printable bytes). -/
def sTyped : HandlerState := shellWrite engDefault 1 sFresh "sudo a".data

/-- State `sTyped` after a line-feed terminator arriving at clock value 7:
`sudo a` matches the `sudo` rule, so the terminator is withheld. -/
def sHeldLF : HandlerState := shellWrite engDefault 7 sTyped ['\n']

/-- State `sFresh` after `sudo a` + carriage return at clock value 1 (first
match, decision `warn-1` pending). -/
def sMatch1 : HandlerState := shellWrite engDefault 1 sFresh "sudo a\r".data

/-- State `sMatch1` after a second carriage return at clock value 2 (second
match, decision `warn-2` pending). -/
def sMatch2 : HandlerState := shellWrite engDefault 2 sMatch1 ['\r']

/-- A state whose line buffer sits exactly at the 64 KiB cap. -/
def sAtCap : HandlerState := ⟨List.replicate MAX_LINE_BUFFER_LENGTH 'a', [], false, true, [], []⟩

/-- A syntactically invalid pattern (an unclosed group — `new RegExp`
throws a `SyntaxError` on it). -/
def badRule : WarningRule :=
  ⟨"bad".data, "Bad Rule".data, "(".data, .low, "Bad".data, "Bad".data⟩

/-- The third built-in rule (`sudo`). -/
def sudoRule : WarningRule := BUILT_IN_RULES.get ⟨2, by decide⟩

/-- The warning result `evaluate` produces for the line `sudo a` at clock
value `now`. -/
def wSudo (now : Nat) : WarningResult := mkWarningResult now "sudo a".data sudoRule

/-- A fresh session state already inside an escape sequence. -/
def sEsc : HandlerState := ⟨[], [], true, true, [], []⟩

/-- Same-millisecond run: `sudo a` followed by a carriage return, the
clock reading 100. -/
def sCollide1 : HandlerState := shellWrite engDefault 100 sFresh "sudo a\r".data

/-- State `sCollide1` after a second carriage return while the clock still reads 100. -/
def sCollide2 : HandlerState := shellWrite engDefault 100 sCollide1 ['\r']

/-- A byte that reaches the printable branch of the `shell:write` loop: at
or above the printable threshold `0x20` and not the DEL byte. -/
def isPrintableByte (c : Char) : Bool := 0x20 ≤ c.toNat && c != '\x7f'

-- ============================================================
-- Helper lemmas: the pending-command map
-- ============================================================

theorem mapGet_mapSet_self (m : List (List Char × PendingCommand)) (k : List Char)
    (v : PendingCommand) : mapGet (mapSet m k v) k = some v := by
  induction m with
  | nil => simp [mapSet, mapGet]
  | cons hd tl ih =>
      by_cases h : hd.1 = k
      · simp [mapSet, mapGet, h]
      · simpa [mapSet, mapGet, h] using ih

theorem mapGet_mapSet_ne (m : List (List Char × PendingCommand)) (k k' : List Char)
    (v : PendingCommand) (h : k' ≠ k) : mapGet (mapSet m k v) k' = mapGet m k' := by
  induction m with
  | nil => simp [mapSet, mapGet, Ne.symm h]
  | cons hd tl ih =>
      obtain ⟨k₀, v₀⟩ := hd
      by_cases hk : k₀ = k
      · subst hk
        simp [mapSet, mapGet, Ne.symm h]
      · by_cases hk' : k₀ = k'
        · simp [mapSet, mapGet, hk, hk', h]
        · simp [mapSet, mapGet, hk, hk', ih]

theorem mapGet_mapDelete_self (m : List (List Char × PendingCommand)) (k : List Char) :
    mapGet (mapDelete m k) k = none := by
  induction m with
  | nil => simp [mapDelete, mapGet]
  | cons hd tl ih =>
      by_cases h : hd.1 = k
      · simpa [mapDelete, mapGet, h] using ih
      · simpa [mapDelete, mapGet, h] using ih

-- ============================================================
-- Helper lemmas: the resolution handlers
-- ============================================================

theorem warningConfirm_of_none (s : HandlerState) (id : List Char)
    (h : mapGet s.pendingCommands id = none) : warningConfirm s id = s := by
  simp [warningConfirm, h]

theorem warningCancel_of_none (s : HandlerState) (id : List Char)
    (h : mapGet s.pendingCommands id = none) : warningCancel s id = s := by
  simp [warningCancel, h]

theorem warningConfirm_of_some (s : HandlerState) (id : List Char) (p : PendingCommand)
    (h : mapGet s.pendingCommands id = some p) :
    warningConfirm s id =
      { s with sinkOut := s.sinkOut ++ p.pendingData
               pendingCommands := mapDelete s.pendingCommands id
               lineBuffer := [] } := by
  simp [warningConfirm, h]

theorem warningCancel_of_some (s : HandlerState) (id : List Char) (p : PendingCommand)
    (h : mapGet s.pendingCommands id = some p) :
    warningCancel s id =
      { s with pendingCommands := mapDelete s.pendingCommands id
               lineBuffer := []
               sinkOut := s.sinkOut ++ ['\x15'] } := by
  simp [warningCancel, h]

-- ============================================================
-- Helper lemmas: branches of the shell:write loop body
-- ============================================================

theorem shellWriteChar_esc_intro (e : WarningEngine) (now : Nat) (s : HandlerState) :
    shellWriteChar e now s '\x1b' =
      { s with inEscapeSequence := true, sinkOut := s.sinkOut ++ ['\x1b'] } := by
  simp [shellWriteChar]

theorem shellWriteChar_in_esc (e : WarningEngine) (now : Nat) (s : HandlerState) (c : Char)
    (hesc : s.inEscapeSequence = true) (hne : c ≠ '\x1b') :
    shellWriteChar e now s c =
      { s with sinkOut := s.sinkOut ++ [c]
               inEscapeSequence := if isEscTerm c then false else true } := by
  simp [shellWriteChar, hne, hesc]

theorem shellWriteChar_term (e : WarningEngine) (now : Nat) (s : HandlerState) (c : Char)
    (hesc : s.inEscapeSequence = false) (hc : c = '\r' ∨ c = '\n') :
    shellWriteChar e now s c =
      if (trimJS s.lineBuffer).length = 0 then
        { s with sinkOut := s.sinkOut ++ [c], lineBuffer := [] }
      else
        match e.evaluate now (trimJS s.lineBuffer) with
        | none => { s with sinkOut := s.sinkOut ++ [c], lineBuffer := [] }
        | some w =>
            { s with
              pendingCommands :=
                mapSet s.pendingCommands w.warningId ⟨w.warningId, ['\r']⟩
              events := s.events ++ [toDisplayPayload w] } := by
  rcases hc with rfl | rfl <;> simp [shellWriteChar, hesc]

theorem shellWriteChar_printable (e : WarningEngine) (now : Nat) (s : HandlerState) (c : Char)
    (hesc : s.inEscapeSequence = false) (hp : isPrintableByte c = true) :
    shellWriteChar e now s c =
      { s with
        lineBuffer :=
          if s.lineBuffer.length < MAX_LINE_BUFFER_LENGTH then s.lineBuffer ++ [c]
          else s.lineBuffer
        sinkOut := s.sinkOut ++ [c] } := by
  simp only [isPrintableByte, Bool.and_eq_true, decide_eq_true_eq, bne_iff_ne] at hp
  obtain ⟨h32, h7f⟩ := hp
  have h1b : c ≠ '\x1b' := by rintro rfl; revert h32; decide
  have h08 : c ≠ '\x08' := by rintro rfl; revert h32; decide
  have hcr : c ≠ '\r' := by rintro rfl; revert h32; decide
  have hlf : c ≠ '\n' := by rintro rfl; revert h32; decide
  have hctl : ¬(c.toNat < 0x20 ∧ c ≠ '\r' ∧ c ≠ '\n') := by
    rintro ⟨hlow, -, -⟩; omega
  simp [shellWriteChar, h1b, hesc, h7f, h08, hcr, hlf, hctl]
  intro hlow
  omega

theorem shellWrite_single (e : WarningEngine) (now : Nat) (s : HandlerState) (c : Char)
    (halive : s.shellAlive = true) :
    shellWrite e now s [c] = shellWriteChar e now s c := by
  simp [shellWrite, halive]

-- ============================================================
-- Helper lemmas: the rule engine
-- ============================================================

theorem findFirstMatch_eq_some_iff (t : List Char) (l : List CompiledRule)
    (cr : CompiledRule) :
    findFirstMatch t l = some cr ↔
      regexTest cr.regex t = true ∧
        ∃ l₁ l₂, l = l₁ ++ cr :: l₂ ∧ ∀ x ∈ l₁, regexTest x.regex t = false := by
  induction l with
  | nil => simp [findFirstMatch]
  | cons hd tl ih =>
      by_cases h : regexTest hd.regex t = true
      · simp only [findFirstMatch, if_pos h]
        constructor
        · rintro ⟨rfl⟩
          exact ⟨h, [], tl, rfl, by simp⟩
        · rintro ⟨hcr, l₁, l₂, heq, hall⟩
          cases l₁ with
          | nil =>
              obtain ⟨rfl, -⟩ := by simpa using heq
              rfl
          | cons a l₁ =>
              obtain ⟨rfl, -⟩ := by simpa using heq
              have := hall hd (by simp)
              rw [h] at this
              exact absurd this (by simp)
      · rw [findFirstMatch, if_neg h, ih]
        constructor
        · rintro ⟨hcr, l₁, l₂, rfl, hall⟩
          refine ⟨hcr, hd :: l₁, l₂, rfl, ?_⟩
          intro x hx
          rcases List.mem_cons.mp hx with rfl | hx
          · simpa using h
          · exact hall x hx
        · rintro ⟨hcr, l₁, l₂, heq, hall⟩
          cases l₁ with
          | nil =>
              obtain ⟨rfl, -⟩ := by simpa using heq
              exact absurd hcr h
          | cons a l₁ =>
              obtain ⟨rfl, htl⟩ := by simpa using heq
              exact ⟨hcr, l₁, l₂, htl, fun x hx => hall x (by simp [hx])⟩

theorem findFirstMatch_eq_none_iff (t : List Char) (l : List CompiledRule) :
    findFirstMatch t l = none ↔ ∀ cr ∈ l, regexTest cr.regex t = false := by
  induction l with
  | nil => simp [findFirstMatch]
  | cons hd tl ih =>
      by_cases h : regexTest hd.regex t = true
      · simp [findFirstMatch, h]
      · simp [findFirstMatch, h, ih, Bool.not_eq_true _ ▸ h]

theorem compileRules_map_rule (l : List WarningRule) :
    (compileRules l).map CompiledRule.rule =
      l.filter (fun r => (compilePattern r.pattern).isSome) := by
  induction l with
  | nil => rfl
  | cons hd tl ih =>
      cases h : compilePattern hd.pattern with
      | none =>
          have h1 : compileRules (hd :: tl) = compileRules tl := by
            simp [compileRules, List.filterMap_cons, h]
          rw [h1, ih, List.filter_cons, h]
          simp
      | some re =>
          have h1 : compileRules (hd :: tl) = ⟨hd, re⟩ :: compileRules tl := by
            simp [compileRules, List.filterMap_cons, h]
          rw [h1, List.map_cons, ih, List.filter_cons, h]
          simp

theorem compileRules_append (l₁ l₂ : List WarningRule) :
    compileRules (l₁ ++ l₂) = compileRules l₁ ++ compileRules l₂ := by
  simp [compileRules, List.filterMap_append]

theorem compileRules_singleton_none (r : WarningRule)
    (h : compilePattern r.pattern = none) : compileRules [r] = [] := by
  simp [compileRules, List.filterMap_cons, h]

theorem mem_compileRules_isSome (l : List WarningRule) (cr : CompiledRule)
    (h : cr ∈ compileRules l) : (compilePattern cr.rule.pattern).isSome = true := by
  obtain ⟨r, -, hr⟩ := List.mem_filterMap.mp h
  cases hp : compilePattern r.pattern with
  | none => rw [hp] at hr; simp at hr
  | some re =>
      rw [hp] at hr
      simp only [Option.map_some'] at hr
      cases hr
      simp [hp]

theorem evaluate_not_enabled (e : WarningEngine) (now : Nat) (cmd : List Char)
    (h : e.enabled = false) : e.evaluate now cmd = none := by
  simp [WarningEngine.evaluate, h]

theorem evaluate_trim_nil (e : WarningEngine) (now : Nat) (cmd : List Char)
    (h : trimJS cmd = []) : e.evaluate now cmd = none := by
  by_cases he : e.enabled <;> simp [WarningEngine.evaluate, he, h]

theorem evaluate_of_enabled (e : WarningEngine) (now : Nat) (cmd : List Char)
    (he : e.enabled = true) (ht : (trimJS cmd).length ≠ 0) :
    e.evaluate now cmd =
      (findFirstMatch (trimJS cmd) e.compiledRules).map
        (fun cr => mkWarningResult now (trimJS cmd) cr.rule) := by
  cases hf : findFirstMatch (trimJS cmd) e.compiledRules <;>
    simp [WarningEngine.evaluate, he, ht, hf]

theorem evaluate_some_trim_ne_nil (e : WarningEngine) (now : Nat) (cmd : List Char)
    (w : WarningResult) (h : e.evaluate now cmd = some w) : (trimJS cmd).length ≠ 0 := by
  intro hlen
  by_cases he : e.enabled <;> simp [WarningEngine.evaluate, he, hlen] at h

theorem regexTest_foldCase_congr (re : CompiledRegex) (t₁ t₂ : List Char)
    (h : foldCase t₁ = foldCase t₂) : regexTest re t₁ = regexTest re t₂ := by
  simp [regexTest, h]

-- ============================================================
-- Helper lemmas: the line-buffer capacity invariant
-- ============================================================

theorem shellWriteChar_lineBuffer_le (e : WarningEngine) (now : Nat) (s : HandlerState)
    (c : Char) (h : s.lineBuffer.length ≤ MAX_LINE_BUFFER_LENGTH) :
    (shellWriteChar e now s c).lineBuffer.length ≤ MAX_LINE_BUFFER_LENGTH := by
  simp only [shellWriteChar]
  repeat' split
  all_goals simp_all [List.length_dropLast, List.length_append]
  all_goals omega

theorem foldl_shellWriteChar_lineBuffer_le (e : WarningEngine) (now : Nat) :
    ∀ (data : List Char) (s : HandlerState),
      s.lineBuffer.length ≤ MAX_LINE_BUFFER_LENGTH →
      (data.foldl (shellWriteChar e now) s).lineBuffer.length ≤ MAX_LINE_BUFFER_LENGTH
  | [], _, h => h
  | c :: cs, s, h =>
      foldl_shellWriteChar_lineBuffer_le e now cs (shellWriteChar e now s c)
        (shellWriteChar_lineBuffer_le e now s c h)

theorem shellWrite_lineBuffer_le (e : WarningEngine) (now : Nat) (s : HandlerState)
    (data : List Char) (h : s.lineBuffer.length ≤ MAX_LINE_BUFFER_LENGTH) :
    (shellWrite e now s data).lineBuffer.length ≤ MAX_LINE_BUFFER_LENGTH := by
  unfold shellWrite
  split
  · exact h
  · exact foldl_shellWriteChar_lineBuffer_le e now data s h

theorem shellWriteChar_match (e : WarningEngine) (now : Nat) (s : HandlerState) (c : Char)
    (w : WarningResult) (hesc : s.inEscapeSequence = false) (hc : c = '\r' ∨ c = '\n')
    (hw : e.evaluate now (trimJS s.lineBuffer) = some w) :
    shellWriteChar e now s c =
      { s with pendingCommands := mapSet s.pendingCommands w.warningId ⟨w.warningId, ['\r']⟩
               events := s.events ++ [toDisplayPayload w] } := by
  rw [shellWriteChar_term e now s c hesc hc]
  have hne : (trimJS s.lineBuffer).length ≠ 0 := by
    intro h0
    have hnil : trimJS s.lineBuffer = [] := List.length_eq_zero.mp h0
    rw [hnil, evaluate_trim_nil e now [] rfl] at hw
    exact Option.noConfusion hw
  rw [if_neg hne, hw]

theorem shellWriteChar_nomatch (e : WarningEngine) (now : Nat) (s : HandlerState) (c : Char)
    (hesc : s.inEscapeSequence = false) (hc : c = '\r' ∨ c = '\n')
    (hw : e.evaluate now (trimJS s.lineBuffer) = none) :
    shellWriteChar e now s c = { s with sinkOut := s.sinkOut ++ [c], lineBuffer := [] } := by
  rw [shellWriteChar_term e now s c hesc hc]
  by_cases h0 : (trimJS s.lineBuffer).length = 0
  · rw [if_pos h0]
  · rw [if_neg h0, hw]

-- ============================================================
-- C1
-- ============================================================

/-- C1 counterexample.  Feeding the line `sudo a` and then the line-feed
terminator `'\n'` (clock value 7): a pending entry is recorded and the
terminator is withheld, but the entry's payload is the carriage-return
byte `'\r'`, not the withheld terminator byte `'\n'` — the handler stores
the literal `'\r'` regardless of which terminator arrived.  The claim's
"a pending entry holding the withheld terminator byte is recorded" is
therefore false at this input. -/
theorem C1_counterexample :
    sHeldLF.sinkOut = "sudo a".data ∧
    mapGet sHeldLF.pendingCommands "warn-7".data = some ⟨"warn-7".data, ['\r']⟩ ∧
    (['\r'] : List Char) ≠ ['\n'] :=
  ⟨by decide, by decide, by decide⟩

/-- C1 (amended): while the shell is alive and outside an escape sequence,
a terminator byte (`'\r'` or `'\n'`) is forwarded immediately when the
trimmed line buffer is empty, and forwarded with the buffer cleared when
the rule engine returns no match; on a match the terminator is not
forwarded, a pending entry holding a carriage-return byte `'\r'`
(regardless of which terminator byte was withheld) is recorded under the
result's decision identifier, and a review-requested event carrying the
warning payload is emitted. -/
theorem C1_terminator_dispatch (e : WarningEngine) (now : Nat) (s : HandlerState) (c : Char)
    (halive : s.shellAlive = true) (hesc : s.inEscapeSequence = false)
    (hc : c = '\r' ∨ c = '\n') :
    (trimJS s.lineBuffer = [] →
      shellWrite e now s [c] = { s with sinkOut := s.sinkOut ++ [c], lineBuffer := [] }) ∧
    (e.evaluate now (trimJS s.lineBuffer) = none →
      shellWrite e now s [c] = { s with sinkOut := s.sinkOut ++ [c], lineBuffer := [] }) ∧
    (∀ w, e.evaluate now (trimJS s.lineBuffer) = some w →
      (shellWrite e now s [c]).sinkOut = s.sinkOut ∧
      (shellWrite e now s [c]).pendingCommands =
        mapSet s.pendingCommands w.warningId ⟨w.warningId, ['\r']⟩ ∧
      mapGet (shellWrite e now s [c]).pendingCommands w.warningId =
        some ⟨w.warningId, ['\r']⟩ ∧
      (shellWrite e now s [c]).events = s.events ++ [toDisplayPayload w]) := by
  rw [shellWrite_single e now s c halive]
  refine ⟨?_, ?_, ?_⟩
  · intro hnil
    rw [shellWriteChar_term e now s c hesc hc, if_pos (by rw [hnil]; rfl)]
  · intro hw
    exact shellWriteChar_nomatch e now s c hesc hc hw
  · intro w hw
    rw [shellWriteChar_match e now s c w hesc hc hw]
    exact ⟨rfl, rfl, mapGet_mapSet_self _ _ _, rfl⟩

/-- C1 witness: the amended theorem applied to the concrete run where
`sudo a` has been typed and a carriage return arrives at clock value 7. -/
theorem C1_witness :
    sTyped.shellAlive = true ∧ sTyped.inEscapeSequence = false ∧
    engDefault.evaluate 7 (trimJS sTyped.lineBuffer) = some (wSudo 7) ∧
    (shellWrite engDefault 7 sTyped ['\r']).sinkOut = sTyped.sinkOut ∧
    mapGet (shellWrite engDefault 7 sTyped ['\r']).pendingCommands (wSudo 7).warningId =
      some ⟨(wSudo 7).warningId, ['\r']⟩ := by
  have hw : engDefault.evaluate 7 (trimJS sTyped.lineBuffer) = some (wSudo 7) := by decide
  have h := (C1_terminator_dispatch engDefault 7 sTyped '\r' (by decide) (by decide)
      (Or.inl rfl)).2.2 (wSudo 7) hw
  exact ⟨by decide, by decide, hw, h.1, h.2.2.1⟩

-- ============================================================
-- C2
-- ============================================================

/-- C2 counterexample.  In the run `sHeldLF` the withheld terminator byte
was the line feed `'\n'` (the only byte of the line not yet forwarded —
the sink holds exactly `sudo a`), yet `confirm` forwards a carriage
return `'\r'`: the claim's "forwards to the sink exactly the withheld
terminator byte(s)" is false at this input. -/
theorem C2_counterexample :
    sHeldLF.sinkOut = "sudo a".data ∧
    (warningConfirm sHeldLF "warn-7".data).sinkOut = "sudo a".data ++ ['\r'] ∧
    (['\r'] : List Char) ≠ ['\n'] :=
  ⟨by decide, by decide, by decide⟩

/-- C2 (amended): for every decision pending in the ledger, `confirm`
forwards exactly the entry's stored payload once and removes the entry;
`cancel` forwards none of the stored payload, sends the single kill-line
byte `'\x15'` instead, and removes the entry.  The stored payload of an
entry created by a rule match is always the single byte `'\r'`, even when
the withheld terminator was `'\n'`. -/
theorem C2_resolution_protocol (s : HandlerState) (id : List Char) (p : PendingCommand)
    (hp : mapGet s.pendingCommands id = some p) :
    ((warningConfirm s id).sinkOut = s.sinkOut ++ p.pendingData ∧
     (warningConfirm s id).pendingCommands = mapDelete s.pendingCommands id ∧
     mapGet (warningConfirm s id).pendingCommands id = none) ∧
    ((warningCancel s id).sinkOut = s.sinkOut ++ ['\x15'] ∧
     (warningCancel s id).pendingCommands = mapDelete s.pendingCommands id ∧
     mapGet (warningCancel s id).pendingCommands id = none) ∧
    (∀ (e : WarningEngine) (now : Nat) (s₀ : HandlerState) (c : Char) (w : WarningResult),
      s₀.inEscapeSequence = false → (c = '\r' ∨ c = '\n') →
      e.evaluate now (trimJS s₀.lineBuffer) = some w →
      mapGet (shellWriteChar e now s₀ c).pendingCommands w.warningId =
        some ⟨w.warningId, ['\r']⟩) := by
  refine ⟨?_, ?_, ?_⟩
  · rw [warningConfirm_of_some s id p hp]
    exact ⟨rfl, rfl, mapGet_mapDelete_self _ _⟩
  · rw [warningCancel_of_some s id p hp]
    exact ⟨rfl, rfl, mapGet_mapDelete_self _ _⟩
  · intro e now s₀ c w hesc hc hw
    rw [shellWriteChar_match e now s₀ c w hesc hc hw]
    exact mapGet_mapSet_self _ _ _

/-- C2 witness: the amended theorem applied to the pending decision
`warn-7` of the concrete run `sHeldLF`. -/
theorem C2_witness :
    mapGet sHeldLF.pendingCommands "warn-7".data = some ⟨"warn-7".data, ['\r']⟩ ∧
    (warningConfirm sHeldLF "warn-7".data).sinkOut = sHeldLF.sinkOut ++ ['\r'] ∧
    (warningCancel sHeldLF "warn-7".data).sinkOut = sHeldLF.sinkOut ++ ['\x15'] ∧
    mapGet (warningCancel sHeldLF "warn-7".data).pendingCommands "warn-7".data = none := by
  have hp : mapGet sHeldLF.pendingCommands "warn-7".data =
      some ⟨"warn-7".data, ['\r']⟩ := by decide
  have h := C2_resolution_protocol sHeldLF "warn-7".data ⟨"warn-7".data, ['\r']⟩ hp
  exact ⟨hp, h.1.1, h.2.1.1, h.2.1.2.2⟩

-- ============================================================
-- C3
-- ============================================================

/-- C3: a `confirm` or `cancel` whose identifier is not in the ledger
leaves the entire handler state unchanged (so nothing is forwarded and no
entry is touched), and a second `confirm`/`cancel` with the same
identifier — in any combination — is a no-op, because the first
resolution removed the entry. -/
theorem C3_resolution_idempotent (s : HandlerState) (id : List Char) :
    (mapGet s.pendingCommands id = none →
      warningConfirm s id = s ∧ warningCancel s id = s) ∧
    warningConfirm (warningConfirm s id) id = warningConfirm s id ∧
    warningCancel (warningCancel s id) id = warningCancel s id ∧
    warningCancel (warningConfirm s id) id = warningConfirm s id ∧
    warningConfirm (warningCancel s id) id = warningCancel s id := by
  refine ⟨fun h => ⟨warningConfirm_of_none s id h, warningCancel_of_none s id h⟩, ?_, ?_, ?_, ?_⟩
  all_goals cases h : mapGet s.pendingCommands id with
  | none =>
      first
      | rw [warningConfirm_of_none s id h, warningConfirm_of_none s id h]
      | rw [warningCancel_of_none s id h, warningCancel_of_none s id h]
      | rw [warningConfirm_of_none s id h, warningCancel_of_none s id h]
      | rw [warningCancel_of_none s id h, warningConfirm_of_none s id h]
  | some p =>
      first
      | (have h2 : mapGet (warningConfirm s id).pendingCommands id = none := by
          rw [warningConfirm_of_some s id p h]
          exact mapGet_mapDelete_self _ _
         first
         | exact warningConfirm_of_none _ id h2
         | exact warningCancel_of_none _ id h2)
      | (have h2 : mapGet (warningCancel s id).pendingCommands id = none := by
          rw [warningCancel_of_some s id p h]
          exact mapGet_mapDelete_self _ _
         first
         | exact warningConfirm_of_none _ id h2
         | exact warningCancel_of_none _ id h2)

/-- C3 witness: applied to the concrete run `sMatch1` and an identifier
that was never issued. -/
theorem C3_witness :
    mapGet sMatch1.pendingCommands "nope".data = none ∧
    warningConfirm sMatch1 "nope".data = sMatch1 ∧
    warningCancel sMatch1 "nope".data = sMatch1 := by
  have h0 : mapGet sMatch1.pendingCommands "nope".data = none := by decide
  have h := (C3_resolution_idempotent sMatch1 "nope".data).1 h0
  exact ⟨h0, h.1, h.2⟩

-- ============================================================
-- C4
-- ============================================================

/-- C4 counterexample.  In the run `sMatch2` a second rule match
(`warn-2`) occurred while `warn-1` was still pending: the `warn-1` ledger
entry is still present afterwards, and a later `confirm` with the earlier
identifier still forwards its withheld byte — the claim's implicit-cancel
behaviour does not exist in the code. -/
theorem C4_counterexample :
    mapGet sMatch2.pendingCommands "warn-1".data = some ⟨"warn-1".data, ['\r']⟩ ∧
    mapGet sMatch2.pendingCommands "warn-2".data = some ⟨"warn-2".data, ['\r']⟩ ∧
    (warningConfirm sMatch2 "warn-1".data).sinkOut = sMatch2.sinkOut ++ ['\r'] :=
  ⟨by decide, by decide, by decide⟩

/-- C4 (amended): several decisions may be pending at once in a session.
A second rule match arriving before an earlier decision is resolved does
not cancel it: the earlier ledger entry (under a different identifier) is
preserved verbatim, and confirming the earlier identifier afterwards
still forwards its withheld bytes. -/
theorem C4_no_implicit_cancel (e : WarningEngine) (now : Nat) (s : HandlerState) (c : Char)
    (k : List Char) (p : PendingCommand) (w : WarningResult)
    (hesc : s.inEscapeSequence = false) (hc : c = '\r' ∨ c = '\n')
    (hw : e.evaluate now (trimJS s.lineBuffer) = some w)
    (hk : mapGet s.pendingCommands k = some p) (hne : k ≠ w.warningId) :
    mapGet (shellWriteChar e now s c).pendingCommands k = some p ∧
    (warningConfirm (shellWriteChar e now s c) k).sinkOut =
      (shellWriteChar e now s c).sinkOut ++ p.pendingData := by
  have hstep := shellWriteChar_match e now s c w hesc hc hw
  have hget : mapGet (shellWriteChar e now s c).pendingCommands k = some p := by
    rw [hstep]
    simpa [mapGet_mapSet_ne _ _ _ _ hne] using hk
  refine ⟨hget, ?_⟩
  rw [warningConfirm_of_some _ k p hget]

/-- C4 witness: the amended theorem applied to the concrete run where a
second `sudo a` match (clock 2) arrives while `warn-1` is pending. -/
theorem C4_witness :
    engDefault.evaluate 2 (trimJS sMatch1.lineBuffer) = some (wSudo 2) ∧
    mapGet sMatch1.pendingCommands "warn-1".data = some ⟨"warn-1".data, ['\r']⟩ ∧
    mapGet (shellWriteChar engDefault 2 sMatch1 '\r').pendingCommands "warn-1".data =
      some ⟨"warn-1".data, ['\r']⟩ ∧
    (warningConfirm (shellWriteChar engDefault 2 sMatch1 '\r') "warn-1".data).sinkOut =
      (shellWriteChar engDefault 2 sMatch1 '\r').sinkOut ++ ['\r'] := by
  have hw : engDefault.evaluate 2 (trimJS sMatch1.lineBuffer) = some (wSudo 2) := by decide
  have hk : mapGet sMatch1.pendingCommands "warn-1".data =
      some ⟨"warn-1".data, ['\r']⟩ := by decide
  have h := C4_no_implicit_cancel engDefault 2 sMatch1 '\r' "warn-1".data
      ⟨"warn-1".data, ['\r']⟩ (wSudo 2) (by decide) (Or.inl rfl) hw hk (by decide)
  exact ⟨hw, hk, h.1, h.2⟩

-- ============================================================
-- C5
-- ============================================================

/-- C5 counterexample.  After the match in run `sMatch1` the decision
`warn-1` is pending yet the line buffer still holds the full line
`sudo a`: the buffer is NOT cleared at detection time in the match
outcome, contradicting the claim. -/
theorem C5_counterexample :
    mapGet sMatch1.pendingCommands "warn-1".data = some ⟨"warn-1".data, ['\r']⟩ ∧
    sMatch1.lineBuffer = "sudo a".data ∧
    "sudo a".data ≠ ([] : List Char) :=
  ⟨by decide, by decide, by decide⟩

/-- C5 (amended): on a terminator byte the line buffer is cleared at
detection time in the empty-candidate and no-match outcomes only; in the
match outcome the buffer retains its contents while the decision is
pending, and is cleared when the decision is confirmed or cancelled. -/
theorem C5_buffer_clearing (e : WarningEngine) (now : Nat) (s : HandlerState) (c : Char)
    (hesc : s.inEscapeSequence = false) (hc : c = '\r' ∨ c = '\n') :
    (trimJS s.lineBuffer = [] → (shellWriteChar e now s c).lineBuffer = []) ∧
    (e.evaluate now (trimJS s.lineBuffer) = none →
      (shellWriteChar e now s c).lineBuffer = []) ∧
    (∀ w, e.evaluate now (trimJS s.lineBuffer) = some w →
      (shellWriteChar e now s c).lineBuffer = s.lineBuffer) ∧
    (∀ id p, mapGet s.pendingCommands id = some p →
      (warningConfirm s id).lineBuffer = [] ∧ (warningCancel s id).lineBuffer = []) := by
  refine ⟨?_, ?_, ?_, ?_⟩
  · intro hnil
    rw [shellWriteChar_term e now s c hesc hc, if_pos (by rw [hnil]; rfl)]
  · intro hw
    rw [shellWriteChar_nomatch e now s c hesc hc hw]
  · intro w hw
    rw [shellWriteChar_match e now s c w hesc hc hw]
  · intro id p hp
    rw [warningConfirm_of_some s id p hp, warningCancel_of_some s id p hp]
    exact ⟨rfl, rfl⟩

/-- C5 witness: the amended theorem applied to the concrete run
`sMatch1`: the match keeps the buffer, confirming clears it. -/
theorem C5_witness :
    engDefault.evaluate 2 (trimJS sMatch1.lineBuffer) = some (wSudo 2) ∧
    (shellWriteChar engDefault 2 sMatch1 '\r').lineBuffer = sMatch1.lineBuffer ∧
    (warningConfirm sMatch1 "warn-1".data).lineBuffer = [] := by
  have hw : engDefault.evaluate 2 (trimJS sMatch1.lineBuffer) = some (wSudo 2) := by decide
  have hp : mapGet sMatch1.pendingCommands "warn-1".data =
      some ⟨"warn-1".data, ['\r']⟩ := by decide
  have h := C5_buffer_clearing engDefault 2 sMatch1 '\r' (by decide) (Or.inl rfl)
  exact ⟨hw, h.2.2.1 (wSudo 2) hw, (h.2.2.2 "warn-1".data ⟨"warn-1".data, ['\r']⟩ hp).1⟩

-- ============================================================
-- C6
-- ============================================================

/-- C6: `evaluate` returns none when the engine is disabled or the
trimmed candidate is empty; the rules it consults are exactly the
successfully compiled ones, in rule-set order (built-ins in catalog order
minus the disabled ids, then custom rules in configuration order); a
`some` result comes from the first compiled rule whose matcher accepts
the trimmed candidate, every earlier rule failing; if no compiled rule
matches, the result is none; and each compiled matcher is
case-insensitive (it cannot distinguish inputs with the same case-fold). -/
theorem C6_evaluate_first_match (cfg : WarningsConfig) (now : Nat) (command : List Char) :
    ((WarningEngine.init cfg).enabled = false →
      (WarningEngine.init cfg).evaluate now command = none) ∧
    (trimJS command = [] → (WarningEngine.init cfg).evaluate now command = none) ∧
    ((WarningEngine.init cfg).compiledRules.map CompiledRule.rule =
      ((BUILT_IN_RULES.filter
          (fun r => !(cfg.disabledBuiltInRules.contains r.id))) ++ cfg.customRules).filter
        (fun r => (compilePattern r.pattern).isSome)) ∧
    (∀ w, (WarningEngine.init cfg).evaluate now command = some w →
      ∃ cr l₁ l₂,
        (WarningEngine.init cfg).compiledRules = l₁ ++ cr :: l₂ ∧
        (∀ x ∈ l₁, regexTest x.regex (trimJS command) = false) ∧
        regexTest cr.regex (trimJS command) = true ∧
        w = mkWarningResult now (trimJS command) cr.rule) ∧
    ((WarningEngine.init cfg).enabled = true → trimJS command ≠ [] →
      (∀ cr ∈ (WarningEngine.init cfg).compiledRules,
        regexTest cr.regex (trimJS command) = false) →
      (WarningEngine.init cfg).evaluate now command = none) ∧
    (∀ cr ∈ (WarningEngine.init cfg).compiledRules, ∀ t₁ t₂ : List Char,
      foldCase t₁ = foldCase t₂ → regexTest cr.regex t₁ = regexTest cr.regex t₂) := by
  refine ⟨evaluate_not_enabled _ now command, evaluate_trim_nil _ now command,
    compileRules_map_rule _, ?_, ?_, ?_⟩
  · intro w hw
    cases henb : (WarningEngine.init cfg).enabled with
    | false =>
        rw [evaluate_not_enabled _ now command henb] at hw
        exact Option.noConfusion hw
    | true =>
        have ht := evaluate_some_trim_ne_nil _ now command w hw
        rw [evaluate_of_enabled _ now command henb ht] at hw
        obtain ⟨cr, hfind, hmap⟩ := Option.map_eq_some'.mp hw
        obtain ⟨htest, l₁, l₂, hdecomp, hall⟩ :=
          (findFirstMatch_eq_some_iff _ _ cr).mp hfind
        exact ⟨cr, l₁, l₂, hdecomp, hall, htest, hmap.symm⟩
  · intro he ht hall
    have hlen : (trimJS command).length ≠ 0 :=
      fun h0 => ht (List.length_eq_zero.mp h0)
    rw [evaluate_of_enabled _ now command he hlen,
      (findFirstMatch_eq_none_iff (trimJS command) _).mpr hall]
    rfl
  · intro cr _ t₁ t₂ h12
    exact regexTest_foldCase_congr cr.regex t₁ t₂ h12

/-- C6 witness: a globally disabled engine and an all-whitespace
candidate both evaluate to none, by the theorem applied at those inputs. -/
theorem C6_witness :
    (WarningEngine.init cfgDisabled).enabled = false ∧
    (WarningEngine.init cfgDisabled).evaluate 3 "sudo x".data = none ∧
    trimJS "   ".data = [] ∧
    (WarningEngine.init cfgDefault).evaluate 3 "   ".data = none :=
  ⟨by decide, (C6_evaluate_first_match cfgDisabled 3 "sudo x".data).1 (by decide),
    by decide, (C6_evaluate_first_match cfgDefault 3 "   ".data).2.1 (by decide)⟩

-- ============================================================
-- C7
-- ============================================================

/-- C7: a rule whose pattern fails to compile is skipped: compiling a
rule list with the bad rule anywhere in it yields exactly the compiled
rules of the surrounding lists (the remaining rules are unaffected); the
compiled list never contains an uncompilable rule, so `evaluate` never
consults one; and `addRule` with the bad rule leaves the compiled rule
set — and therefore every `evaluate` answer — unchanged, surfacing no
error (all functions involved are total). -/
theorem C7_invalid_pattern_skipped (l₁ l₂ : List WarningRule) (bad : WarningRule)
    (e : WarningEngine) (now : Nat)
    (hbad : compilePattern bad.pattern = none) :
    compileRules (l₁ ++ bad :: l₂) = compileRules l₁ ++ compileRules l₂ ∧
    (∀ (l : List WarningRule) (cr : CompiledRule), cr ∈ compileRules l →
      (compilePattern cr.rule.pattern).isSome = true) ∧
    (e.addRule bad).allRules = e.allRules ++ [bad] ∧
    (e.compiledRules = compileRules e.allRules →
      (e.addRule bad).compiledRules = e.compiledRules ∧
      ∀ cmd, (e.addRule bad).evaluate now cmd = e.evaluate now cmd) := by
  have hsplit : ∀ l : List WarningRule,
      compileRules (l ++ [bad]) = compileRules l := by
    intro l
    rw [compileRules_append, compileRules_singleton_none bad hbad, List.append_nil]
  refine ⟨?_, fun l cr h => mem_compileRules_isSome l cr h, rfl, ?_⟩
  · have : compileRules (bad :: l₂) = compileRules l₂ := by
      have := compileRules_append [bad] l₂
      rw [compileRules_singleton_none bad hbad] at this
      simpa using this
    rw [compileRules_append, this]
  · intro hinv
    have hcr : (e.addRule bad).compiledRules = e.compiledRules := by
      show compileRules (e.allRules ++ [bad]) = e.compiledRules
      rw [hsplit, hinv]
    refine ⟨hcr, fun cmd => ?_⟩
    show WarningEngine.evaluate _ now cmd = WarningEngine.evaluate _ now cmd
    unfold WarningEngine.evaluate
    rw [show (e.addRule bad).enabled = e.enabled from rfl, hcr]

/-- C7 witness: the theorem applied to the concrete invalid pattern `(`
(on which `new RegExp` throws), with the default engine. -/
theorem C7_witness :
    compilePattern badRule.pattern = none ∧
    compileRules ([] ++ badRule :: []) = compileRules [] ++ compileRules [] ∧
    (engDefault.addRule badRule).evaluate 5 "sudo a".data =
      engDefault.evaluate 5 "sudo a".data := by
  have hbad : compilePattern badRule.pattern = none := by decide
  have h := C7_invalid_pattern_skipped [] [] badRule engDefault 5 hbad
  exact ⟨hbad, h.1, (h.2.2.2 rfl).2 "sudo a".data⟩

-- ============================================================
-- C8
-- ============================================================

/-- C8: the escape introducer is forwarded immediately and enters
escape-sequence mode without touching the line buffer; every byte that
arrives while in escape-sequence mode is forwarded immediately, leaves
the line buffer, the ledger and the event stream untouched, and ends the
mode exactly when it is a letter or a tilde (the introducer byte itself
re-enters the mode). -/
theorem C8_escape_passthrough (e : WarningEngine) (now : Nat) (s : HandlerState) (c : Char) :
    (shellWriteChar e now s '\x1b' =
      { s with inEscapeSequence := true, sinkOut := s.sinkOut ++ ['\x1b'] }) ∧
    (s.inEscapeSequence = true →
      (shellWriteChar e now s c).sinkOut = s.sinkOut ++ [c] ∧
      (shellWriteChar e now s c).lineBuffer = s.lineBuffer ∧
      (shellWriteChar e now s c).pendingCommands = s.pendingCommands ∧
      (shellWriteChar e now s c).events = s.events ∧
      ((shellWriteChar e now s c).inEscapeSequence = false ↔
        (isEscTerm c = true ∧ c ≠ '\x1b'))) := by
  refine ⟨shellWriteChar_esc_intro e now s, fun hesc => ?_⟩
  by_cases h1b : c = '\x1b'
  · subst h1b
    rw [shellWriteChar_esc_intro e now s]
    exact ⟨rfl, rfl, rfl, rfl, by simp⟩
  · rw [shellWriteChar_in_esc e now s c hesc h1b]
    refine ⟨rfl, rfl, rfl, rfl, ?_⟩
    cases hterm : isEscTerm c <;> simp [hterm, h1b]

/-- C8 witness: applied to the concrete in-escape state `sEsc` and the
terminator byte `A` of an arrow-key sequence. -/
theorem C8_witness :
    sEsc.inEscapeSequence = true ∧
    (shellWriteChar engDefault 0 sEsc 'A').sinkOut = sEsc.sinkOut ++ ['A'] ∧
    (shellWriteChar engDefault 0 sEsc 'A').lineBuffer = sEsc.lineBuffer ∧
    (shellWriteChar engDefault 0 sEsc 'A').inEscapeSequence = false := by
  have h := (C8_escape_passthrough engDefault 0 sEsc 'A').2 rfl
  exact ⟨rfl, h.1, h.2.1, h.2.2.2.2.mpr ⟨by decide, by decide⟩⟩

-- ============================================================
-- C9
-- ============================================================

/-- C9: from any state within the 64 KiB bound, the line buffer stays
within the bound after any single byte and after any whole `shell:write`
payload; and at exactly the cap a printable byte outside an escape
sequence is dropped from the buffer while still being forwarded to the
sink. -/
theorem C9_buffer_capacity (e : WarningEngine) (now : Nat) (s : HandlerState)
    (h : s.lineBuffer.length ≤ MAX_LINE_BUFFER_LENGTH) :
    (∀ c, (shellWriteChar e now s c).lineBuffer.length ≤ MAX_LINE_BUFFER_LENGTH) ∧
    (∀ data, (shellWrite e now s data).lineBuffer.length ≤ MAX_LINE_BUFFER_LENGTH) ∧
    (∀ c, s.lineBuffer.length = MAX_LINE_BUFFER_LENGTH → isPrintableByte c = true →
      s.inEscapeSequence = false →
      (shellWriteChar e now s c).lineBuffer = s.lineBuffer ∧
      (shellWriteChar e now s c).sinkOut = s.sinkOut ++ [c]) := by
  refine ⟨fun c => shellWriteChar_lineBuffer_le e now s c h,
    fun data => shellWrite_lineBuffer_le e now s data h, ?_⟩
  intro c hcap hp hesc
  rw [shellWriteChar_printable e now s c hesc hp,
    if_neg (by rw [hcap]; exact lt_irrefl _)]
  exact ⟨rfl, rfl⟩

/-- C9 witness: applied to the concrete state `sAtCap`, whose buffer sits
exactly at the cap: the printable byte `x` is dropped from the buffer
but appended to the sink. -/
theorem C9_witness :
    sAtCap.lineBuffer.length = MAX_LINE_BUFFER_LENGTH ∧
    (shellWriteChar engDefault 0 sAtCap 'x').lineBuffer = sAtCap.lineBuffer ∧
    (shellWriteChar engDefault 0 sAtCap 'x').sinkOut = sAtCap.sinkOut ++ ['x'] := by
  have hlen : sAtCap.lineBuffer.length = MAX_LINE_BUFFER_LENGTH := by
    simp [sAtCap]
  have h := (C9_buffer_capacity engDefault 0 sAtCap (le_of_eq hlen)).2.2 'x'
      hlen (by decide) rfl
  exact ⟨hlen, h.1, h.2⟩

-- ============================================================
-- C10
-- ============================================================

/-- C10: two distinct detections — different commands matching different
rules — evaluated during the same millisecond (`Date.now()` returning 100
both times) receive the SAME decision identifier `warn-100`: the
identifier is `'warn-' + Date.now()`, which is not fresh across
detections within one millisecond, so a second same-millisecond detection
overwrites the first ledger entry.  This contradicts the claimed (and
spec-intended) uniqueness. -/
theorem C10_warning_id_collision :
    (engDefault.evaluate 100 "sudo a".data).map WarningResult.ruleId =
      some "sudo".data ∧
    (engDefault.evaluate 100 "rm -rf b".data).map WarningResult.ruleId =
      some "rm-rf".data ∧
    (engDefault.evaluate 100 "sudo a".data).map WarningResult.warningId =
      some "warn-100".data ∧
    (engDefault.evaluate 100 "rm -rf b".data).map WarningResult.warningId =
      some "warn-100".data ∧
    sCollide2.events.length = 2 ∧
    sCollide2.pendingCommands = [("warn-100".data, ⟨"warn-100".data, ['\r']⟩)] :=
  ⟨by decide, by decide, by decide, by decide, by decide, by decide⟩
